import Mathlib

/-!
Shallow embedding of `ghas-licensing-by-tool.js`: the main processing loop
that determines, per repository, whether Secret Scanning and Code Scanning
are enabled, and accumulates unique committer logins into two sets.

Network responses are modelled as per-repository oracles (`RepoApi`), and
the observable behaviour (console output, API calls issued, the two
committer sets, the success counter) is threaded through an explicit
state `St`.
-/

namespace GhasTool

/-- One entry of `advanced_security_committers_breakdown`; the code only
reads its `user_login` field. -/
structure CommitterEntry where
  user_login : String
deriving DecidableEq, Repr

/-- Outcome of the `GET .../code-security-configuration` request
(lines 122-130): either the request throws, or it succeeds carrying
`data.status` and the two configuration fields read by the code. -/
inductive ConfigResult where
  | failure : ConfigResult
  | success (status : String) (secret_scanning : String)
      (code_scanning_default_setup : String) : ConfigResult
deriving DecidableEq, Repr

/-- Outcome of `codeScanning.listRecentAnalyses` (lines 178-181): a throw,
or a success carrying the length of `analyses.data`. -/
inductive AnalysesResult where
  | failure : AnalysesResult
  | success (len : Nat) : AnalysesResult
deriving DecidableEq, Repr

/-- Per-repository network oracle: the responses the three per-repo
requests would produce for this repository. -/
structure RepoApi where
  config : ConfigResult
  settingsStatus : Nat
  settingsSecretScanning : String
  analyses : AnalysesResult
deriving DecidableEq, Repr

/-- One element of the billing repository list: `name` is the full
"org/repo" name, together with the committer breakdown and this
network oracle of the repository. -/
structure RepoData where
  name : String
  advanced_security_committers_breakdown : List CommitterEntry
  api : RepoApi
deriving DecidableEq, Repr

/-- Parsed command-line arguments relevant to the main loop. -/
structure Argv where
  enterprise : String
  org : Option String
  verbose : Bool
deriving DecidableEq, Repr

/-- The enterprise billing summary (lines 67-69). -/
structure Stats where
  total_advanced_security_committers : Nat
  maximum_advanced_security_committers : Nat
  purchased_advanced_security_committers : Nat
deriving DecidableEq, Repr

/-- Trace marker for the three per-repository API requests. -/
inductive ApiCall where
  | configFetch (owner repo : String) : ApiCall
  | settingsFetch (owner repo : String) : ApiCall
  | analysesProbe (owner repo : String) : ApiCall
deriving DecidableEq, Repr

/-- Observable program state: console output lines, API calls issued, the
two committer sets (JS `Set` modelled as an insertion-ordered duplicate-free
list), and the `successfullyProcessed` counter. -/
structure St where
  output : List String
  calls : List ApiCall
  secretProtectionCommitters : List String
  codeScanningCommitters : List String
  successfullyProcessed : Nat
deriving DecidableEq, Repr

/-- Model of `console.log(line)`. -/
def St.print (st : St) (line : String) : St :=
  { st with output := st.output ++ [line] }

/-- Record that an API request was issued. -/
def St.call (st : St) (c : ApiCall) : St :=
  { st with calls := st.calls ++ [c] }

/-- Model of JavaScript truthiness of `argv.org`: `undefined` and the empty string
are falsy. -/
def jsTruthy : Option String → Bool
  | none => false
  | some s => !(s == "")

/-- Model of JS `Set.prototype.add`: appends the element unless already present. -/
def setAdd (s : List String) (x : String) : List String :=
  if x ∈ s then s else s ++ [x]

/-- Model of `committers.forEach((committer) => set.add(committer.user_login))`. -/
def addCommitters (s : List String) (cs : List CommitterEntry) : List String :=
  cs.foldl (fun acc c => setAdd acc c.user_login) s

/-- The committer logins of the breakdown of a repository. -/
def logins (r : RepoData) : List String :=
  r.advanced_security_committers_breakdown.map (fun c => c.user_login)

/-- Split a character list at every occurrence of `sep`, accumulating the
current segment in reverse. Structural recursion, so it evaluates inside
the kernel. -/
def splitChars (sep : Char) : List Char → List Char → List (List Char)
  | [], acc => [acc.reverse]
  | c :: cs, acc =>
      if c = sep then acc.reverse :: splitChars sep cs []
      else splitChars sep cs (c :: acc)

/-- Model of JS `name.split(sep)` for a one-character separator. -/
def jsSplit (s : String) (sep : Char) : List String :=
  (splitChars sep s.data []).map String.mk

/-- Model of `name.split("/")[0]` (the `owner` of the destructuring on line 106). -/
def ownerOf (r : RepoData) : String := (jsSplit r.name (Char.ofNat 47)).headD ""

/-- Model of `name.split("/")[1]` (the `repo` of the destructuring on line 106). -/
def repoOf (r : RepoData) : String := ((jsSplit r.name (Char.ofNat 47)).drop 1).headD ""

/-- Lines 132-139: starting from `false`, the two enabled flags are set to
`true` under `status === "attached"` when the respective configuration
field equals `"enabled"`. Returns
`(secretProtectionEnabled, codeScanningEnabled)`. -/
def flagsAfterConfig (status secret_scanning code_scanning_default_setup : String) :
    Bool × Bool :=
  let secretProtectionEnabled := false
  let codeScanningEnabled := false
  let secretProtectionEnabled :=
    if status == "attached" then
      (if secret_scanning == "enabled" then true else secretProtectionEnabled)
    else secretProtectionEnabled
  let codeScanningEnabled :=
    if status == "attached" then
      (if code_scanning_default_setup == "enabled" then true else codeScanningEnabled)
    else codeScanningEnabled
  (secretProtectionEnabled, codeScanningEnabled)

/-- Lines 191-195: add the breakdown to the code-scanning set when
`codeScanningEnabled` holds. -/
def addCodeCommitters (st : St) (repo_data : RepoData) (codeScanningEnabled : Bool) : St :=
  if codeScanningEnabled then
    { st with codeScanningCommitters :=
        addCommitters st.codeScanningCommitters repo_data.advanced_security_committers_breakdown }
  else st

/-- Lines 175-189: when `codeScanningEnabled` is still false, issue the
recent-analyses probe; a throw means `continue` (nothing added), otherwise
a nonempty `data` sets the flag. -/
def codeProbe (st : St) (repo_data : RepoData) (codeScanningEnabled : Bool) : St :=
  if !codeScanningEnabled then
    let st := St.call st (ApiCall.analysesProbe (ownerOf repo_data) (repoOf repo_data))
    match repo_data.api.analyses with
    | AnalysesResult.failure => st
    | AnalysesResult.success len =>
        let codeScanningEnabled := if len > 0 then true else codeScanningEnabled
        addCodeCommitters st repo_data codeScanningEnabled
  else
    addCodeCommitters st repo_data codeScanningEnabled

/-- Lines 169-173 followed by the code-scanning block: add the breakdown to
the secret-protection set when enabled, then run the code-scanning part. -/
def addSecretCommitters (st : St) (repo_data : RepoData)
    (secretProtectionEnabled codeScanningEnabled : Bool) : St :=
  let st :=
    if secretProtectionEnabled then
      { st with secretProtectionCommitters :=
          addCommitters st.secretProtectionCommitters repo_data.advanced_security_committers_breakdown }
    else st
  codeProbe st repo_data codeScanningEnabled

/-- Lines 151-167: when `secretProtectionEnabled` is still false, fetch the
repository settings; a non-200 status logs an error (unconditionally) and
`continue`s; otherwise `security_and_analysis.secret_scanning.status`
decides the flag. -/
def secretFallback (st : St) (repo_data : RepoData)
    (secretProtectionEnabled codeScanningEnabled : Bool) : St :=
  if !secretProtectionEnabled then
    let name := repo_data.name
    let st := St.call st (ApiCall.settingsFetch (ownerOf repo_data) (repoOf repo_data))
    if !(repo_data.api.settingsStatus == 200) then
      St.print st ("Error fetching repo settings for " ++ name)
    else
      let secretProtectionEnabled :=
        if repo_data.api.settingsSecretScanning == "enabled" then true
        else secretProtectionEnabled
      addSecretCommitters st repo_data secretProtectionEnabled codeScanningEnabled
  else
    addSecretCommitters st repo_data secretProtectionEnabled codeScanningEnabled

/-- Lines 116-195 after the org skip: initialise the flags, fetch the
code-security configuration (a throw logs in verbose mode and `continue`s;
a success sets the flags per `flagsAfterConfig` and increments the
counter), then the secret-scanning fallback and code-scanning blocks. -/
def processRepoBody (argv : Argv) (st : St) (repo_data : RepoData) : St :=
  let name := repo_data.name
  let st := St.call st (ApiCall.configFetch (ownerOf repo_data) (repoOf repo_data))
  match repo_data.api.config with
  | ConfigResult.failure =>
      if argv.verbose then
        St.print st ("Error fetching code security configuration for " ++ name)
      else st
  | ConfigResult.success status ss csds =>
      let flags := flagsAfterConfig status ss csds
      let st := { st with successfullyProcessed := st.successfullyProcessed + 1 }
      secretFallback st repo_data flags.1 flags.2

/-- One iteration of the loop over `filteredRepos` (lines 99-196), with the
literal duplicated-continue org-skip branch of lines 108-114. -/
def processRepo (argv : Argv) (filteredList : List RepoData) (st : St)
    (repo_data : RepoData) : St :=
  let st :=
    if argv.verbose then
      St.print st ("Repo " ++ toString (List.indexOf repo_data filteredList + 1)
        ++ ": " ++ repo_data.name)
    else st
  let owner := ownerOf repo_data
  if jsTruthy argv.org && !(owner == argv.org.getD "") then
    (if argv.verbose then st else st)
  else
    processRepoBody argv st repo_data

/-- The same iteration with the org skip written as a single unconditional
`continue` (the simplification the spec proposes for lines 108-114). -/
def processRepoSimplified (argv : Argv) (filteredList : List RepoData) (st : St)
    (repo_data : RepoData) : St :=
  let st :=
    if argv.verbose then
      St.print st ("Repo " ++ toString (List.indexOf repo_data filteredList + 1)
        ++ ": " ++ repo_data.name)
    else st
  let owner := ownerOf repo_data
  if jsTruthy argv.org && !(owner == argv.org.getD "") then
    st
  else
    processRepoBody argv st repo_data

/-- Lines 89-91: filter the billing list by the org name when the org
parameter is provided (JS truthiness). -/
def filteredRepos (argv : Argv) (repos : List RepoData) : List RepoData :=
  if jsTruthy argv.org then
    repos.filter (fun repo => repo.name.startsWith ((argv.org.getD "") ++ "/"))
  else repos

/-- Lines 67-95: print the billing summary and the repository count. -/
def preamble (argv : Argv) (stats : Stats) (repos : List RepoData) : St :=
  let st : St := { output := [], calls := [], secretProtectionCommitters := [],
                   codeScanningCommitters := [], successfullyProcessed := 0 }
  let totalActiveCommitters := stats.total_advanced_security_committers
  let maxActiveCommitters := stats.maximum_advanced_security_committers
  let purchasedCommitters := stats.purchased_advanced_security_committers
  let st := St.print st ("Total active committers: " ++ toString totalActiveCommitters)
  let st := St.print st ("Max active committers: " ++ toString maxActiveCommitters)
  let st := St.print st ("Purchased committers: " ++ toString purchasedCommitters)
  let st := St.print st ""
  let st := St.print st ("Number of repos: " ++ toString (filteredRepos argv repos).length)
  St.print st ""

/-- State after the whole repository loop. -/
def loopResult (argv : Argv) (stats : Stats) (repos : List RepoData) : St :=
  (filteredRepos argv repos).foldl (processRepo argv (filteredRepos argv repos))
    (preamble argv stats repos)

/-- Same, with the simplified org skip. -/
def loopResultSimplified (argv : Argv) (stats : Stats) (repos : List RepoData) : St :=
  (filteredRepos argv repos).foldl (processRepoSimplified argv (filteredRepos argv repos))
    (preamble argv stats repos)

/-- Model of JS `array.sort()` on an array of distinct strings: the lexicographically
sorted rearrangement (lines 211 and 216). -/
def jsSortStrings (a : List String) : List String :=
  List.insertionSort (fun x y => x ≤ y) a

/-- Model of the forEach printing of one committer list (lines 211-213). -/
def printList (st : St) (a : List String) : St :=
  a.foldl (fun acc committer => St.print acc (" - " ++ committer)) st

/-- Lines 199-219: final count lines and, in verbose mode, the two sorted
committer lists. -/
def finalReport (argv : Argv) (filteredLength : Nat) (st : St) : St :=
  let secretProtectionArray := st.secretProtectionCommitters
  let codeScanningArray := st.codeScanningCommitters
  let st := St.print st ""
  let st := St.print st ("Successfully processed repositories: "
    ++ toString st.successfullyProcessed ++ " out of " ++ toString filteredLength)
  let st := St.print st ("Secret protection: " ++ toString secretProtectionArray.length)
  let st := St.print st ("Code security: " ++ toString codeScanningArray.length)
  if argv.verbose then
    let st := St.print st "Secret protection committers:"
    let st := printList st (jsSortStrings secretProtectionArray)
    let st := St.print st "Code scanning committers:"
    printList st (jsSortStrings codeScanningArray)
  else st

/-- The whole observable run of `main` after argument validation. -/
def mainRun (argv : Argv) (stats : Stats) (repos : List RepoData) : St :=
  finalReport argv (filteredRepos argv repos).length (loopResult argv stats repos)

/-- The whole run with the simplified org skip. -/
def mainRunSimplified (argv : Argv) (stats : Stats) (repos : List RepoData) : St :=
  finalReport argv (filteredRepos argv repos).length (loopResultSimplified argv stats repos)

/-- The in-loop org re-check of line 109 fires. -/
def inLoopSkip (argv : Argv) (r : RepoData) : Bool :=
  jsTruthy argv.org && !(ownerOf r == argv.org.getD "")

/-- The code-security-configuration fetch succeeds. -/
def configOk (r : RepoData) : Bool :=
  match r.api.config with
  | ConfigResult.failure => false
  | ConfigResult.success _ _ _ => true

/-- Secret scanning enabled via the attached configuration. -/
def secretViaConfig (r : RepoData) : Bool :=
  match r.api.config with
  | ConfigResult.failure => false
  | ConfigResult.success status ss _ => (flagsAfterConfig status ss "").1

/-- Code scanning enabled via the attached configuration. -/
def codeViaConfig (r : RepoData) : Bool :=
  match r.api.config with
  | ConfigResult.failure => false
  | ConfigResult.success status _ csds => (flagsAfterConfig status "" csds).2

/-- The loop iteration for `r` reaches the secret-protection add: not
skipped, configuration fetch succeeded, and the tool is determined enabled
(via the configuration or via the settings fallback). -/
def secretAdds (argv : Argv) (r : RepoData) : Bool :=
  !(inLoopSkip argv r) && configOk r &&
    (secretViaConfig r ||
      (r.api.settingsStatus == 200 && r.api.settingsSecretScanning == "enabled"))

/-- The loop iteration for `r` reaches the code-scanning block: not skipped,
configuration fetch succeeded, and the secret-scanning fallback did not
`continue` out (its settings fetch, if issued, returned 200). -/
def reachesCodeBlock (argv : Argv) (r : RepoData) : Bool :=
  !(inLoopSkip argv r) && configOk r &&
    (secretViaConfig r || r.api.settingsStatus == 200)

/-- The recent-analyses probe reports at least one analysis. -/
def probeHit (r : RepoData) : Bool :=
  match r.api.analyses with
  | AnalysesResult.failure => false
  | AnalysesResult.success len => decide (len > 0)

/-- The loop iteration for `r` reaches the code-scanning add: the code block
is reached and the tool is determined enabled (via the configuration or via
a nonempty recent-analyses probe). -/
def codeAdds (argv : Argv) (r : RepoData) : Bool :=
  reachesCodeBlock argv r && (codeViaConfig r || probeHit r)

/-- The loop iteration for `r` increments `successfullyProcessed`. -/
def countsAsProcessed (argv : Argv) (r : RepoData) : Bool :=
  !(inLoopSkip argv r) && configOk r

/-! Projection lemmas for the two state helpers. -/

@[simp] lemma print_secret (st : St) (l : String) :
    (St.print st l).secretProtectionCommitters = st.secretProtectionCommitters := rfl

@[simp] lemma print_code (st : St) (l : String) :
    (St.print st l).codeScanningCommitters = st.codeScanningCommitters := rfl

@[simp] lemma print_count (st : St) (l : String) :
    (St.print st l).successfullyProcessed = st.successfullyProcessed := rfl

@[simp] lemma print_calls (st : St) (l : String) :
    (St.print st l).calls = st.calls := rfl

@[simp] lemma print_output (st : St) (l : String) :
    (St.print st l).output = st.output ++ [l] := rfl

@[simp] lemma call_secret (st : St) (c : ApiCall) :
    (St.call st c).secretProtectionCommitters = st.secretProtectionCommitters := rfl

@[simp] lemma call_code (st : St) (c : ApiCall) :
    (St.call st c).codeScanningCommitters = st.codeScanningCommitters := rfl

@[simp] lemma call_count (st : St) (c : ApiCall) :
    (St.call st c).successfullyProcessed = st.successfullyProcessed := rfl

@[simp] lemma call_calls (st : St) (c : ApiCall) :
    (St.call st c).calls = st.calls ++ [c] := rfl

@[simp] lemma call_output (st : St) (c : ApiCall) :
    (St.call st c).output = st.output := rfl

/-! Basic lemmas about the set model. -/

lemma mem_setAdd {s : List String} {x y : String} :
    x ∈ setAdd s y ↔ x ∈ s ∨ x = y := by
  unfold setAdd
  split
  · constructor
    · exact Or.inl
    · rintro (h | rfl) <;> assumption
  · simp

lemma nodup_setAdd {s : List String} (h : s.Nodup) (y : String) :
    (setAdd s y).Nodup := by
  unfold setAdd
  split
  · exact h
  · simpa [List.nodup_append] using ⟨h, by assumption⟩

lemma mem_addCommitters {x : String} :
    ∀ (cs : List CommitterEntry) (s : List String),
      (x ∈ addCommitters s cs ↔ x ∈ s ∨ ∃ c ∈ cs, c.user_login = x)
  | [], s => by simp [addCommitters]
  | c :: cs, s => by
      have ih := mem_addCommitters (x := x) cs (setAdd s c.user_login)
      simp only [addCommitters, List.foldl_cons] at ih ⊢
      rw [ih, mem_setAdd]
      constructor
      · rintro ((h | rfl) | ⟨d, hd, hdx⟩)
        · exact Or.inl h
        · exact Or.inr ⟨c, by simp⟩
        · exact Or.inr ⟨d, by simp [hd], hdx⟩
      · rintro (h | ⟨d, hd, hdx⟩)
        · exact Or.inl (Or.inl h)
        · rcases List.mem_cons.mp hd with rfl | hd
          · exact Or.inl (Or.inr hdx.symm)
          · exact Or.inr ⟨d, hd, hdx⟩

lemma nodup_addCommitters {s : List String} (h : s.Nodup) :
    ∀ cs : List CommitterEntry, (addCommitters s cs).Nodup := by
  intro cs
  induction cs generalizing s with
  | nil => exact h
  | cons c cs ih => exact ih (nodup_setAdd h c.user_login)

/-! Characterisation of the configuration-step flags. -/

@[simp] lemma flagsAfterConfig_fst (status ss csds : String) :
    (flagsAfterConfig status ss csds).1 = (status == "attached" && ss == "enabled") := by
  unfold flagsAfterConfig
  by_cases h1 : (status == "attached") = true <;>
    by_cases h2 : (ss == "enabled") = true <;> simp [h1, h2]

@[simp] lemma flagsAfterConfig_snd (status ss csds : String) :
    (flagsAfterConfig status ss csds).2 = (status == "attached" && csds == "enabled") := by
  unfold flagsAfterConfig
  by_cases h1 : (status == "attached") = true <;>
    by_cases h2 : (csds == "enabled") = true <;> simp [h1, h2]

/-! Field-preservation lemmas for the helper chain. -/

@[simp] lemma addCodeCommitters_secret (st : St) (r : RepoData) (b : Bool) :
    (addCodeCommitters st r b).secretProtectionCommitters = st.secretProtectionCommitters := by
  cases b <;> simp [addCodeCommitters]

@[simp] lemma addCodeCommitters_count (st : St) (r : RepoData) (b : Bool) :
    (addCodeCommitters st r b).successfullyProcessed = st.successfullyProcessed := by
  cases b <;> simp [addCodeCommitters]

@[simp] lemma addCodeCommitters_output (st : St) (r : RepoData) (b : Bool) :
    (addCodeCommitters st r b).output = st.output := by
  cases b <;> simp [addCodeCommitters]

@[simp] lemma addCodeCommitters_calls (st : St) (r : RepoData) (b : Bool) :
    (addCodeCommitters st r b).calls = st.calls := by
  cases b <;> simp [addCodeCommitters]

@[simp] lemma addCodeCommitters_code (st : St) (r : RepoData) (b : Bool) :
    (addCodeCommitters st r b).codeScanningCommitters =
      (if b then addCommitters st.codeScanningCommitters
          r.advanced_security_committers_breakdown
       else st.codeScanningCommitters) := by
  cases b <;> simp [addCodeCommitters]

@[simp] lemma codeProbe_secret (st : St) (r : RepoData) (b : Bool) :
    (codeProbe st r b).secretProtectionCommitters = st.secretProtectionCommitters := by
  cases b <;> cases h : r.api.analyses <;> simp [codeProbe, h]

@[simp] lemma codeProbe_count (st : St) (r : RepoData) (b : Bool) :
    (codeProbe st r b).successfullyProcessed = st.successfullyProcessed := by
  cases b <;> cases h : r.api.analyses <;> simp [codeProbe, h]

@[simp] lemma codeProbe_output (st : St) (r : RepoData) (b : Bool) :
    (codeProbe st r b).output = st.output := by
  cases b <;> cases h : r.api.analyses <;> simp [codeProbe, h]

lemma codeProbe_calls (st : St) (r : RepoData) (b : Bool) :
    (codeProbe st r b).calls =
      (if b then st.calls
       else st.calls ++ [ApiCall.analysesProbe (ownerOf r) (repoOf r)]) := by
  cases b <;> cases h : r.api.analyses <;> simp [codeProbe, h]

lemma codeProbe_code (st : St) (r : RepoData) (b : Bool) :
    (codeProbe st r b).codeScanningCommitters =
      (if b || probeHit r then
        addCommitters st.codeScanningCommitters r.advanced_security_committers_breakdown
       else st.codeScanningCommitters) := by
  cases b with
  | true => simp [codeProbe, probeHit]
  | false =>
      cases h : r.api.analyses with
      | failure => simp [codeProbe, probeHit, h]
      | success len => by_cases hl : len > 0 <;> simp [codeProbe, probeHit, h, hl]

@[simp] lemma addSecretCommitters_count (st : St) (r : RepoData) (b1 b2 : Bool) :
    (addSecretCommitters st r b1 b2).successfullyProcessed = st.successfullyProcessed := by
  cases b1 <;> simp [addSecretCommitters]

@[simp] lemma addSecretCommitters_output (st : St) (r : RepoData) (b1 b2 : Bool) :
    (addSecretCommitters st r b1 b2).output = st.output := by
  cases b1 <;> simp [addSecretCommitters]

lemma addSecretCommitters_calls (st : St) (r : RepoData) (b1 b2 : Bool) :
    (addSecretCommitters st r b1 b2).calls =
      (if b2 then st.calls
       else st.calls ++ [ApiCall.analysesProbe (ownerOf r) (repoOf r)]) := by
  cases b1 <;> simp [addSecretCommitters, codeProbe_calls]

lemma addSecretCommitters_secret (st : St) (r : RepoData) (b1 b2 : Bool) :
    (addSecretCommitters st r b1 b2).secretProtectionCommitters =
      (if b1 then addCommitters st.secretProtectionCommitters
          r.advanced_security_committers_breakdown
       else st.secretProtectionCommitters) := by
  cases b1 <;> simp [addSecretCommitters]

lemma addSecretCommitters_code (st : St) (r : RepoData) (b1 b2 : Bool) :
    (addSecretCommitters st r b1 b2).codeScanningCommitters =
      (if b2 || probeHit r then
        addCommitters st.codeScanningCommitters r.advanced_security_committers_breakdown
       else st.codeScanningCommitters) := by
  cases b1 <;> simp [addSecretCommitters, codeProbe_code]

@[simp] lemma secretFallback_count (st : St) (r : RepoData) (b1 b2 : Bool) :
    (secretFallback st r b1 b2).successfullyProcessed = st.successfullyProcessed := by
  cases b1 <;> by_cases h200 : (r.api.settingsStatus == 200) = true <;>
    simp [secretFallback, h200]

/-- The settings fallback determines the secret flag: the incoming flag, or
else a 200 settings response whose secret-scanning status is enabled. -/
lemma secretFallback_secret (st : St) (r : RepoData) (b1 b2 : Bool) :
    (secretFallback st r b1 b2).secretProtectionCommitters =
      (if b1 || (r.api.settingsStatus == 200 &&
            r.api.settingsSecretScanning == "enabled") then
        addCommitters st.secretProtectionCommitters
          r.advanced_security_committers_breakdown
       else st.secretProtectionCommitters) := by
  cases b1 with
  | true => simp [secretFallback, addSecretCommitters_secret]
  | false =>
      by_cases h200 : (r.api.settingsStatus == 200) = true
      · by_cases hen : (r.api.settingsSecretScanning == "enabled") = true <;>
          simp [secretFallback, h200, hen, addSecretCommitters_secret]
      · simp [secretFallback, h200]

/-- The code set after the fallback: unchanged when the fallback
`continue`s out (settings non-200), otherwise per the code-scanning block. -/
lemma secretFallback_code (st : St) (r : RepoData) (b1 b2 : Bool) :
    (secretFallback st r b1 b2).codeScanningCommitters =
      (if b1 || r.api.settingsStatus == 200 then
        (if b2 || probeHit r then
          addCommitters st.codeScanningCommitters r.advanced_security_committers_breakdown
         else st.codeScanningCommitters)
       else st.codeScanningCommitters) := by
  cases b1 with
  | true => simp [secretFallback, addSecretCommitters_code]
  | false =>
      by_cases h200 : (r.api.settingsStatus == 200) = true <;>
        simp [secretFallback, h200, addSecretCommitters_code]

/-- The fallback prints its error line exactly when it runs (incoming flag
false) and the settings status is not 200 - independently of verbosity. -/
lemma secretFallback_output (st : St) (r : RepoData) (b1 b2 : Bool) :
    (secretFallback st r b1 b2).output =
      (if !b1 && !(r.api.settingsStatus == 200) then
        st.output ++ ["Error fetching repo settings for " ++ r.name]
       else st.output) := by
  cases b1 with
  | true => simp [secretFallback]
  | false =>
      by_cases h200 : (r.api.settingsStatus == 200) = true <;>
        simp [secretFallback, h200]

lemma secretFallback_calls (st : St) (r : RepoData) (b1 b2 : Bool) :
    (secretFallback st r b1 b2).calls =
      st.calls ++
        (if b1 then [] else [ApiCall.settingsFetch (ownerOf r) (repoOf r)]) ++
        (if (b1 || r.api.settingsStatus == 200) && !b2 then
          [ApiCall.analysesProbe (ownerOf r) (repoOf r)]
         else []) := by
  cases b1 with
  | true => cases b2 <;> simp [secretFallback, addSecretCommitters_calls]
  | false =>
      by_cases h200 : (r.api.settingsStatus == 200) = true
      · cases b2 <;> simp [secretFallback, h200, addSecretCommitters_calls]
      · simp [secretFallback, h200]

/-! Characterisation of one loop iteration, per observable field. -/

lemma processRepoBody_count (argv : Argv) (st : St) (r : RepoData) :
    (processRepoBody argv st r).successfullyProcessed =
      st.successfullyProcessed + (if configOk r then 1 else 0) := by
  cases hc : r.api.config with
  | failure => cases hv : argv.verbose <;> simp [processRepoBody, configOk, hc, hv]
  | success status ss csds => simp [processRepoBody, configOk, hc]

lemma processRepoBody_secret (argv : Argv) (st : St) (r : RepoData) :
    (processRepoBody argv st r).secretProtectionCommitters =
      (if configOk r &&
          (secretViaConfig r ||
            (r.api.settingsStatus == 200 &&
              r.api.settingsSecretScanning == "enabled")) then
        addCommitters st.secretProtectionCommitters
          r.advanced_security_committers_breakdown
       else st.secretProtectionCommitters) := by
  cases hc : r.api.config with
  | failure =>
      cases hv : argv.verbose <;>
        simp [processRepoBody, configOk, secretViaConfig, hc, hv]
  | success status ss csds =>
      simp [processRepoBody, configOk, secretViaConfig, hc, secretFallback_secret]

lemma processRepoBody_code (argv : Argv) (st : St) (r : RepoData) :
    (processRepoBody argv st r).codeScanningCommitters =
      (if configOk r && (secretViaConfig r || r.api.settingsStatus == 200) &&
          (codeViaConfig r || probeHit r) then
        addCommitters st.codeScanningCommitters
          r.advanced_security_committers_breakdown
       else st.codeScanningCommitters) := by
  cases hc : r.api.config with
  | failure =>
      cases hv : argv.verbose <;>
        simp [processRepoBody, configOk, secretViaConfig, codeViaConfig, hc, hv]
  | success status ss csds =>
      by_cases hreach :
          ((status == "attached" && ss == "enabled") ||
            r.api.settingsStatus == 200) = true <;>
      by_cases hcode :
          ((status == "attached" && csds == "enabled") || probeHit r) = true <;>
        simp [processRepoBody, configOk, secretViaConfig, codeViaConfig, hc,
          secretFallback_code, hreach, hcode]

lemma secretFallback_output_extends (st : St) (r : RepoData) (b1 b2 : Bool) :
    ∃ t, (secretFallback st r b1 b2).output = st.output ++ t := by
  by_cases hcond : (!b1 && !(r.api.settingsStatus == 200)) = true
  · rw [secretFallback_output, if_pos hcond]
    exact ⟨_, rfl⟩
  · rw [secretFallback_output, if_neg hcond]
    exact ⟨[], by simp⟩

lemma processRepoBody_output_extends (argv : Argv) (st : St) (r : RepoData) :
    ∃ t, (processRepoBody argv st r).output = st.output ++ t := by
  cases hc : r.api.config with
  | failure =>
      cases hv : argv.verbose
      · exact ⟨[], by simp [processRepoBody, hc, hv]⟩
      · exact ⟨["Error fetching code security configuration for " ++ r.name],
          by simp [processRepoBody, hc, hv]⟩
  | success status ss csds =>
      simp only [processRepoBody, hc]
      obtain ⟨t, ht⟩ := secretFallback_output_extends
        { St.call st (ApiCall.configFetch (ownerOf r) (repoOf r)) with
            successfullyProcessed :=
              (St.call st (ApiCall.configFetch (ownerOf r) (repoOf r))).successfullyProcessed + 1 }
        r (flagsAfterConfig status ss csds).1 (flagsAfterConfig status ss csds).2
      exact ⟨t, by rw [ht]; simp⟩

lemma processRepo_count (argv : Argv) (fr : List RepoData) (st : St) (r : RepoData) :
    (processRepo argv fr st r).successfullyProcessed =
      st.successfullyProcessed + (if countsAsProcessed argv r then 1 else 0) := by
  unfold processRepo countsAsProcessed inLoopSkip
  cases hv : argv.verbose <;>
    by_cases hskip : (jsTruthy argv.org && !(ownerOf r == argv.org.getD "")) = true <;>
      simp [hv, hskip, processRepoBody_count]

lemma processRepo_secret (argv : Argv) (fr : List RepoData) (st : St) (r : RepoData) :
    (processRepo argv fr st r).secretProtectionCommitters =
      (if secretAdds argv r then
        addCommitters st.secretProtectionCommitters
          r.advanced_security_committers_breakdown
       else st.secretProtectionCommitters) := by
  unfold processRepo secretAdds inLoopSkip
  cases hv : argv.verbose <;>
    by_cases hskip : (jsTruthy argv.org && !(ownerOf r == argv.org.getD "")) = true <;>
      simp [hv, hskip, processRepoBody_secret]

lemma processRepo_code (argv : Argv) (fr : List RepoData) (st : St) (r : RepoData) :
    (processRepo argv fr st r).codeScanningCommitters =
      (if codeAdds argv r then
        addCommitters st.codeScanningCommitters
          r.advanced_security_committers_breakdown
       else st.codeScanningCommitters) := by
  unfold processRepo codeAdds reachesCodeBlock inLoopSkip
  cases hv : argv.verbose <;>
    by_cases hskip : (jsTruthy argv.org && !(ownerOf r == argv.org.getD "")) = true <;>
      simp [hv, hskip, processRepoBody_code, Bool.and_assoc]

lemma processRepo_output_extends (argv : Argv) (fr : List RepoData) (st : St)
    (r : RepoData) :
    ∃ t, (processRepo argv fr st r).output = st.output ++ t := by
  unfold processRepo
  cases hv : argv.verbose <;>
    by_cases hskip : (jsTruthy argv.org && !(ownerOf r == argv.org.getD "")) = true
  · simp only [hv, hskip, if_true, Bool.false_eq_true, if_false]
    exact ⟨[], by simp⟩
  · simp only [hv, hskip, Bool.false_eq_true, if_false]
    exact processRepoBody_output_extends argv st r
  · simp only [hv, hskip, if_true]
    exact ⟨["Repo " ++ toString (List.indexOf r fr + 1) ++ ": " ++ r.name], by simp⟩
  · simp only [hv, hskip, if_true]
    obtain ⟨t, ht⟩ := processRepoBody_output_extends argv
      (St.print st ("Repo " ++ toString (List.indexOf r fr + 1) ++ ": " ++ r.name)) r
    exact ⟨("Repo " ++ toString (List.indexOf r fr + 1) ++ ": " ++ r.name) :: t,
      by simp only [Bool.false_eq_true, if_false]; rw [ht]; simp⟩

/-! Lemmas about the whole loop. -/

lemma foldl_count (argv : Argv) (fr : List RepoData) :
    ∀ (l : List RepoData) (st : St),
      (l.foldl (processRepo argv fr) st).successfullyProcessed =
        st.successfullyProcessed + l.countP (fun r => countsAsProcessed argv r) := by
  intro l
  induction l with
  | nil => intro st; simp
  | cons r t ih =>
      intro st
      rw [List.foldl_cons, ih, processRepo_count, List.countP_cons]
      by_cases h : countsAsProcessed argv r = true <;> simp [h] <;> omega

lemma foldl_secret_mem (argv : Argv) (fr : List RepoData) (x : String) :
    ∀ (l : List RepoData) (st : St),
      (x ∈ (l.foldl (processRepo argv fr) st).secretProtectionCommitters ↔
        x ∈ st.secretProtectionCommitters ∨
          ∃ r ∈ l, secretAdds argv r = true ∧
            ∃ c ∈ r.advanced_security_committers_breakdown, c.user_login = x) := by
  intro l
  induction l with
  | nil => intro st; simp
  | cons r t ih =>
      intro st
      rw [List.foldl_cons, ih, processRepo_secret, List.exists_mem_cons_iff]
      by_cases h : secretAdds argv r = true
      · rw [if_pos h, mem_addCommitters]
        simp only [h, true_and]
        rw [or_assoc]
      · rw [if_neg h]
        simp [h]

lemma foldl_code_mem (argv : Argv) (fr : List RepoData) (x : String) :
    ∀ (l : List RepoData) (st : St),
      (x ∈ (l.foldl (processRepo argv fr) st).codeScanningCommitters ↔
        x ∈ st.codeScanningCommitters ∨
          ∃ r ∈ l, codeAdds argv r = true ∧
            ∃ c ∈ r.advanced_security_committers_breakdown, c.user_login = x) := by
  intro l
  induction l with
  | nil => intro st; simp
  | cons r t ih =>
      intro st
      rw [List.foldl_cons, ih, processRepo_code, List.exists_mem_cons_iff]
      by_cases h : codeAdds argv r = true
      · rw [if_pos h, mem_addCommitters]
        simp only [h, true_and]
        rw [or_assoc]
      · rw [if_neg h]
        simp [h]

lemma foldl_secret_nodup (argv : Argv) (fr : List RepoData) :
    ∀ (l : List RepoData) (st : St),
      st.secretProtectionCommitters.Nodup →
        (l.foldl (processRepo argv fr) st).secretProtectionCommitters.Nodup := by
  intro l
  induction l with
  | nil => intro st h; simpa using h
  | cons r t ih =>
      intro st h
      rw [List.foldl_cons]
      apply ih
      rw [processRepo_secret]
      by_cases hr : secretAdds argv r = true
      · rw [if_pos hr]
        exact nodup_addCommitters h _
      · rw [if_neg hr]
        exact h

lemma foldl_code_nodup (argv : Argv) (fr : List RepoData) :
    ∀ (l : List RepoData) (st : St),
      st.codeScanningCommitters.Nodup →
        (l.foldl (processRepo argv fr) st).codeScanningCommitters.Nodup := by
  intro l
  induction l with
  | nil => intro st h; simpa using h
  | cons r t ih =>
      intro st h
      rw [List.foldl_cons]
      apply ih
      rw [processRepo_code]
      by_cases hr : codeAdds argv r = true
      · rw [if_pos hr]
        exact nodup_addCommitters h _
      · rw [if_neg hr]
        exact h

lemma foldl_output_extends (argv : Argv) (fr : List RepoData) :
    ∀ (l : List RepoData) (st : St),
      ∃ t, (l.foldl (processRepo argv fr) st).output = st.output ++ t := by
  intro l
  induction l with
  | nil => intro st; exact ⟨[], by simp⟩
  | cons r t ih =>
      intro st
      rw [List.foldl_cons]
      obtain ⟨t1, h1⟩ := processRepo_output_extends argv fr st r
      obtain ⟨t2, h2⟩ := ih (processRepo argv fr st r)
      exact ⟨t1 ++ t2, by rw [h2, h1, List.append_assoc]⟩

/-! Lemmas about the final report. -/

@[simp] lemma printList_secret (l : List String) (st : St) :
    (printList st l).secretProtectionCommitters = st.secretProtectionCommitters := by
  induction l generalizing st with
  | nil => rfl
  | cons a t ih => simp [printList, List.foldl_cons] at ih ⊢; exact ih _

@[simp] lemma printList_code (l : List String) (st : St) :
    (printList st l).codeScanningCommitters = st.codeScanningCommitters := by
  induction l generalizing st with
  | nil => rfl
  | cons a t ih => simp [printList, List.foldl_cons] at ih ⊢; exact ih _

@[simp] lemma printList_count (l : List String) (st : St) :
    (printList st l).successfullyProcessed = st.successfullyProcessed := by
  induction l generalizing st with
  | nil => rfl
  | cons a t ih => simp [printList, List.foldl_cons] at ih ⊢; exact ih _

lemma printList_output_extends (l : List String) (st : St) :
    ∃ t, (printList st l).output = st.output ++ t := by
  induction l generalizing st with
  | nil => exact ⟨[], by simp [printList]⟩
  | cons a t ih =>
      obtain ⟨u, hu⟩ := ih (St.print st (" - " ++ a))
      exact ⟨(" - " ++ a) :: u, by
        simp only [printList, List.foldl_cons] at hu ⊢
        rw [hu]
        simp⟩

lemma finalReport_secret (argv : Argv) (n : Nat) (st : St) :
    (finalReport argv n st).secretProtectionCommitters = st.secretProtectionCommitters := by
  cases hv : argv.verbose <;> simp [finalReport, hv]

lemma finalReport_code (argv : Argv) (n : Nat) (st : St) :
    (finalReport argv n st).codeScanningCommitters = st.codeScanningCommitters := by
  cases hv : argv.verbose <;> simp [finalReport, hv]

lemma finalReport_count (argv : Argv) (n : Nat) (st : St) :
    (finalReport argv n st).successfullyProcessed = st.successfullyProcessed := by
  cases hv : argv.verbose <;> simp [finalReport, hv]

lemma printList_output_mono (l : List String) (st : St) (x : String)
    (h : x ∈ st.output) : x ∈ (printList st l).output := by
  obtain ⟨t, ht⟩ := printList_output_extends l st
  rw [ht]
  exact List.mem_append_left _ h

lemma finalReport_output_mono (argv : Argv) (n : Nat) (st : St) (x : String)
    (h : x ∈ st.output) : x ∈ (finalReport argv n st).output := by
  cases hv : argv.verbose with
  | false => simp [finalReport, hv, h]
  | true =>
      simp only [finalReport, hv, if_true]
      apply printList_output_mono
      simp only [print_output]
      apply List.mem_append_left
      apply printList_output_mono
      simp [h]

lemma loop_output_mono (argv : Argv) (fr l : List RepoData) (st : St) (x : String)
    (h : x ∈ st.output) : x ∈ (l.foldl (processRepo argv fr) st).output := by
  obtain ⟨t, ht⟩ := foldl_output_extends argv fr l st
  rw [ht]
  exact List.mem_append_left _ h

@[simp] lemma preamble_secret (argv : Argv) (stats : Stats) (repos : List RepoData) :
    (preamble argv stats repos).secretProtectionCommitters = [] := by
  simp [preamble]

@[simp] lemma preamble_code (argv : Argv) (stats : Stats) (repos : List RepoData) :
    (preamble argv stats repos).codeScanningCommitters = [] := by
  simp [preamble]

@[simp] lemma preamble_count (argv : Argv) (stats : Stats) (repos : List RepoData) :
    (preamble argv stats repos).successfullyProcessed = 0 := by
  simp [preamble]

lemma mainRun_secret (argv : Argv) (stats : Stats) (repos : List RepoData) :
    (mainRun argv stats repos).secretProtectionCommitters =
      (loopResult argv stats repos).secretProtectionCommitters :=
  finalReport_secret argv _ _

lemma mainRun_code (argv : Argv) (stats : Stats) (repos : List RepoData) :
    (mainRun argv stats repos).codeScanningCommitters =
      (loopResult argv stats repos).codeScanningCommitters :=
  finalReport_code argv _ _

lemma mainRun_count (argv : Argv) (stats : Stats) (repos : List RepoData) :
    (mainRun argv stats repos).successfullyProcessed =
      (loopResult argv stats repos).successfullyProcessed :=
  finalReport_count argv _ _

lemma loopResult_secret_mem (argv : Argv) (stats : Stats) (repos : List RepoData)
    (x : String) :
    x ∈ (loopResult argv stats repos).secretProtectionCommitters ↔
      ∃ r ∈ filteredRepos argv repos, secretAdds argv r = true ∧
        ∃ c ∈ r.advanced_security_committers_breakdown, c.user_login = x := by
  rw [loopResult, foldl_secret_mem]
  simp

lemma loopResult_code_mem (argv : Argv) (stats : Stats) (repos : List RepoData)
    (x : String) :
    x ∈ (loopResult argv stats repos).codeScanningCommitters ↔
      ∃ r ∈ filteredRepos argv repos, codeAdds argv r = true ∧
        ∃ c ∈ r.advanced_security_committers_breakdown, c.user_login = x := by
  rw [loopResult, foldl_code_mem]
  simp

lemma loopResult_secret_nodup (argv : Argv) (stats : Stats) (repos : List RepoData) :
    (loopResult argv stats repos).secretProtectionCommitters.Nodup := by
  rw [loopResult]
  exact foldl_secret_nodup argv _ _ _ (by simp)

lemma loopResult_code_nodup (argv : Argv) (stats : Stats) (repos : List RepoData) :
    (loopResult argv stats repos).codeScanningCommitters.Nodup := by
  rw [loopResult]
  exact foldl_code_nodup argv _ _ _ (by simp)

/-- C5: for every considered repository (one in the filtered list that the
in-loop org re-check does not skip), the `successfullyProcessed` counter is
incremented exactly when the code-security-configuration fetch succeeds -
independently of attachment status or enabled/disabled outcome, neither of
which `countsAsProcessed` consults - and hence the final counter equals the
number of considered repositories whose configuration fetch succeeded. -/
theorem C5_success_counter (argv : Argv) (stats : Stats) (repos : List RepoData) :
    (∀ (fr : List RepoData) (st : St) (r : RepoData),
      (processRepo argv fr st r).successfullyProcessed =
        st.successfullyProcessed + (if countsAsProcessed argv r then 1 else 0)) ∧
    (mainRun argv stats repos).successfullyProcessed =
      List.countP (fun r => countsAsProcessed argv r) (filteredRepos argv repos) := by
  constructor
  · intro fr st r
    exact processRepo_count argv fr st r
  · rw [mainRun_count, loopResult, foldl_count]
    simp

/-- C6: when the configuration request succeeds with status "attached", the
configuration step sets `secretProtectionEnabled` exactly when
`configuration.secret_scanning` equals "enabled" and `codeScanningEnabled`
exactly when `configuration.code_scanning_default_setup` equals "enabled"
(both flags having started from `false`). -/
theorem C6_attached_flags (status ss csds : String) (h : status = "attached") :
    (flagsAfterConfig status ss csds).1 = (ss == "enabled") ∧
    (flagsAfterConfig status ss csds).2 = (csds == "enabled") := by
  subst h
  simp

/-- Witness for C6 at a concrete attached configuration. -/
theorem C6_attached_flags_witness :
    (flagsAfterConfig "attached" "enabled" "disabled").1 = ("enabled" == "enabled") ∧
    (flagsAfterConfig "attached" "enabled" "disabled").2 = ("disabled" == "enabled") :=
  C6_attached_flags "attached" "enabled" "disabled" rfl

lemma processRepo_eq_simplified (argv : Argv) (fr : List RepoData) (st : St)
    (r : RepoData) :
    processRepo argv fr st r = processRepoSimplified argv fr st r := by
  unfold processRepo processRepoSimplified
  simp only [ite_self]

/-- C9: with an org filter set, the duplicated-continue branching of the
in-loop owner re-check (`if (argv.verbose) continue; continue;`) is
observably equivalent to a single unconditional skip: the entire run state -
output, API calls, both committer sets, and the counter - is identical. -/
theorem C9_duplicate_continue_equiv (argv : Argv) (stats : Stats)
    (repos : List RepoData) (h : jsTruthy argv.org = true) :
    mainRun argv stats repos = mainRunSimplified argv stats repos := by
  have hp : processRepo argv (filteredRepos argv repos) =
      processRepoSimplified argv (filteredRepos argv repos) := by
    funext st r
    exact processRepo_eq_simplified argv (filteredRepos argv repos) st r
  rw [mainRun, mainRunSimplified, loopResult, loopResultSimplified, hp]

/-- Witness for C9 at a concrete run with the org filter set. -/
theorem C9_duplicate_continue_equiv_witness :
    mainRun (Argv.mk "e" (some "acme") true) (Stats.mk 1 2 3) [] =
      mainRunSimplified (Argv.mk "e" (some "acme") true) (Stats.mk 1 2 3) [] :=
  C9_duplicate_continue_equiv (Argv.mk "e" (some "acme") true) (Stats.mk 1 2 3) []
    (by decide)

/-- C3: a login appearing in the breakdowns of one or more considered
repositories where a tool is determined enabled occurs exactly once in that
final set of that tool, so the reported per-tool count counts each unique login
once. -/
theorem C3_committers_counted_once (argv : Argv) (stats : Stats)
    (repos : List RepoData) (x : String) :
    ((∃ r ∈ filteredRepos argv repos, secretAdds argv r = true ∧
        ∃ c ∈ r.advanced_security_committers_breakdown, c.user_login = x) →
      List.count x (mainRun argv stats repos).secretProtectionCommitters = 1) ∧
    ((∃ r ∈ filteredRepos argv repos, codeAdds argv r = true ∧
        ∃ c ∈ r.advanced_security_committers_breakdown, c.user_login = x) →
      List.count x (mainRun argv stats repos).codeScanningCommitters = 1) := by
  constructor
  · intro h
    rw [mainRun_secret]
    exact List.count_eq_one_of_mem (loopResult_secret_nodup argv stats repos)
      ((loopResult_secret_mem argv stats repos x).mpr h)
  · intro h
    rw [mainRun_code]
    exact List.count_eq_one_of_mem (loopResult_code_nodup argv stats repos)
      ((loopResult_code_mem argv stats repos x).mpr h)

/-- Two repositories sharing the committer "alice", both with secret
scanning enabled via an attached configuration. -/
def exReposC3 : List RepoData :=
  [{ name := "acme/one",
     advanced_security_committers_breakdown := [⟨"alice"⟩, ⟨"bob"⟩],
     api := { config := ConfigResult.success "attached" "enabled" "enabled",
              settingsStatus := 200, settingsSecretScanning := "enabled",
              analyses := AnalysesResult.success 1 } },
   { name := "acme/two",
     advanced_security_committers_breakdown := [⟨"alice"⟩],
     api := { config := ConfigResult.success "attached" "enabled" "enabled",
              settingsStatus := 200, settingsSecretScanning := "enabled",
              analyses := AnalysesResult.success 1 } }]

/-- Witness for C3: "alice" is active on two qualifying repositories and is
counted exactly once. -/
theorem C3_committers_counted_once_witness :
    (∃ r ∈ filteredRepos (Argv.mk "e" none false) exReposC3,
        secretAdds (Argv.mk "e" none false) r = true ∧
        ∃ c ∈ r.advanced_security_committers_breakdown, c.user_login = "alice") ∧
    List.count "alice"
      (mainRun (Argv.mk "e" none false) (Stats.mk 0 0 0)
        exReposC3).secretProtectionCommitters = 1 :=
  ⟨by decide,
    (C3_committers_counted_once (Argv.mk "e" none false) (Stats.mk 0 0 0)
      exReposC3 "alice").1 (by decide)⟩

/-- C10: soundness of the aggregation - every login in a final set comes
from the breakdown of some considered repository for which the tool was
determined enabled during the loop; no other path adds logins. -/
theorem C10_aggregation_sound (argv : Argv) (stats : Stats)
    (repos : List RepoData) :
    (∀ x ∈ (mainRun argv stats repos).secretProtectionCommitters,
       ∃ r ∈ filteredRepos argv repos, secretAdds argv r = true ∧
         ∃ c ∈ r.advanced_security_committers_breakdown, c.user_login = x) ∧
    (∀ x ∈ (mainRun argv stats repos).codeScanningCommitters,
       ∃ r ∈ filteredRepos argv repos, codeAdds argv r = true ∧
         ∃ c ∈ r.advanced_security_committers_breakdown, c.user_login = x) := by
  constructor
  · intro x hx
    rw [mainRun_secret] at hx
    exact (loopResult_secret_mem argv stats repos x).mp hx
  · intro x hx
    rw [mainRun_code] at hx
    exact (loopResult_code_mem argv stats repos x).mp hx

/-- One repository whose committer "carol" enters the code-scanning set via
the analyses probe. -/
def exReposC10 : List RepoData :=
  [{ name := "acme/ten",
     advanced_security_committers_breakdown := [⟨"carol"⟩],
     api := { config := ConfigResult.success "" "" "",
              settingsStatus := 200, settingsSecretScanning := "disabled",
              analyses := AnalysesResult.success 2 } }]

/-- Witness for C10: the login "carol" of the final code-scanning set is
traced back to a considered repository with the tool enabled. -/
theorem C10_aggregation_sound_witness :
    ("carol" ∈ (mainRun (Argv.mk "e" none false) (Stats.mk 0 0 0)
        exReposC10).codeScanningCommitters) ∧
    (∃ r ∈ filteredRepos (Argv.mk "e" none false) exReposC10,
       codeAdds (Argv.mk "e" none false) r = true ∧
       ∃ c ∈ r.advanced_security_committers_breakdown, c.user_login = "carol") :=
  ⟨by decide,
    (C10_aggregation_sound (Argv.mk "e" none false) (Stats.mk 0 0 0)
      exReposC10).2 "carol" (by decide)⟩

/-- C4: with an org filter set, only repositories whose full name starts
with "org/" are considered - the final sets draw only from such
repositories - and the reported repository count is the length of the list
remaining after this prefix filter. -/
theorem C4_org_prefix_filter (argv : Argv) (stats : Stats)
    (repos : List RepoData) (o : String) (h1 : argv.org = some o)
    (h2 : ¬o = "") :
    (∀ r ∈ filteredRepos argv repos, r.name.startsWith (o ++ "/") = true) ∧
    (∀ x ∈ (mainRun argv stats repos).secretProtectionCommitters,
       ∃ r ∈ repos, r.name.startsWith (o ++ "/") = true ∧
         ∃ c ∈ r.advanced_security_committers_breakdown, c.user_login = x) ∧
    (∀ x ∈ (mainRun argv stats repos).codeScanningCommitters,
       ∃ r ∈ repos, r.name.startsWith (o ++ "/") = true ∧
         ∃ c ∈ r.advanced_security_committers_breakdown, c.user_login = x) ∧
    ("Number of repos: " ++
        toString (repos.filter (fun r => r.name.startsWith (o ++ "/"))).length) ∈
      (mainRun argv stats repos).output := by
  have htr : jsTruthy argv.org = true := by
    rw [h1]
    simp [jsTruthy, h2]
  have hfr : filteredRepos argv repos =
      repos.filter (fun r => r.name.startsWith (o ++ "/")) := by
    have htr2 : jsTruthy (some o) = true := by rw [h1] at htr; exact htr
    simp [filteredRepos, h1, htr2]
  refine ⟨?_, ?_, ?_, ?_⟩
  · intro r hr
    rw [hfr] at hr
    exact (List.mem_filter.mp hr).2
  · intro x hx
    rw [mainRun_secret] at hx
    obtain ⟨r, hr, _, hc⟩ := (loopResult_secret_mem argv stats repos x).mp hx
    rw [hfr] at hr
    obtain ⟨hrr, hpref⟩ := List.mem_filter.mp hr
    exact ⟨r, hrr, hpref, hc⟩
  · intro x hx
    rw [mainRun_code] at hx
    obtain ⟨r, hr, _, hc⟩ := (loopResult_code_mem argv stats repos x).mp hx
    rw [hfr] at hr
    obtain ⟨hrr, hpref⟩ := List.mem_filter.mp hr
    exact ⟨r, hrr, hpref, hc⟩
  · have hpre : ("Number of repos: " ++
        toString (filteredRepos argv repos).length) ∈
        (preamble argv stats repos).output := by
      simp [preamble]
    rw [hfr] at hpre
    rw [mainRun]
    apply finalReport_output_mono
    rw [loopResult]
    exact loop_output_mono argv _ _ _ _ hpre

/-- Organisation-filter example: one repository inside "beta", one outside. -/
def exReposC4 : List RepoData :=
  [{ name := "acme/out",
     advanced_security_committers_breakdown := [⟨"mallory"⟩],
     api := { config := ConfigResult.success "attached" "enabled" "enabled",
              settingsStatus := 200, settingsSecretScanning := "enabled",
              analyses := AnalysesResult.success 1 } },
   { name := "beta/in",
     advanced_security_committers_breakdown := [⟨"zoe"⟩],
     api := { config := ConfigResult.success "attached" "enabled" "enabled",
              settingsStatus := 200, settingsSecretScanning := "enabled",
              analyses := AnalysesResult.success 1 } }]

/-- Witness for C4 at a concrete filtered run. -/
theorem C4_org_prefix_filter_witness :
    (∀ r ∈ filteredRepos (Argv.mk "e" (some "beta") false) exReposC4,
       r.name.startsWith ("beta" ++ "/") = true) ∧
    (∀ x ∈ (mainRun (Argv.mk "e" (some "beta") false) (Stats.mk 0 0 0)
        exReposC4).secretProtectionCommitters,
       ∃ r ∈ exReposC4, r.name.startsWith ("beta" ++ "/") = true ∧
         ∃ c ∈ r.advanced_security_committers_breakdown, c.user_login = x) ∧
    (∀ x ∈ (mainRun (Argv.mk "e" (some "beta") false) (Stats.mk 0 0 0)
        exReposC4).codeScanningCommitters,
       ∃ r ∈ exReposC4, r.name.startsWith ("beta" ++ "/") = true ∧
         ∃ c ∈ r.advanced_security_committers_breakdown, c.user_login = x) ∧
    ("Number of repos: " ++
        toString (exReposC4.filter
          (fun r => r.name.startsWith ("beta" ++ "/"))).length) ∈
      (mainRun (Argv.mk "e" (some "beta") false) (Stats.mk 0 0 0)
        exReposC4).output :=
  C4_org_prefix_filter (Argv.mk "e" (some "beta") false) (Stats.mk 0 0 0)
    exReposC4 "beta" rfl (by decide)

/-- C8: in verbose mode each of the two printed committer lists (the
sorted arrays of lines 211 and 216) is sorted lexicographically and
contains no duplicate login. -/
theorem C8_verbose_lists_sorted (argv : Argv) (stats : Stats)
    (repos : List RepoData) (h : argv.verbose = true) :
    (List.Sorted (fun a b => a ≤ b)
        (jsSortStrings (loopResult argv stats repos).secretProtectionCommitters) ∧
      (jsSortStrings (loopResult argv stats repos).secretProtectionCommitters).Nodup) ∧
    (List.Sorted (fun a b => a ≤ b)
        (jsSortStrings (loopResult argv stats repos).codeScanningCommitters) ∧
      (jsSortStrings (loopResult argv stats repos).codeScanningCommitters).Nodup) := by
  refine ⟨⟨?_, ?_⟩, ?_, ?_⟩
  · exact List.sorted_insertionSort _ _
  · exact (List.perm_insertionSort _ _).nodup_iff.mpr
      (loopResult_secret_nodup argv stats repos)
  · exact List.sorted_insertionSort _ _
  · exact (List.perm_insertionSort _ _).nodup_iff.mpr
      (loopResult_code_nodup argv stats repos)

/-- Witness for C8 at a concrete verbose run. -/
theorem C8_verbose_lists_sorted_witness :
    (List.Sorted (fun a b => a ≤ b)
        (jsSortStrings (loopResult (Argv.mk "e" none true) (Stats.mk 0 0 0)
          exReposC3).secretProtectionCommitters) ∧
      (jsSortStrings (loopResult (Argv.mk "e" none true) (Stats.mk 0 0 0)
        exReposC3).secretProtectionCommitters).Nodup) ∧
    (List.Sorted (fun a b => a ≤ b)
        (jsSortStrings (loopResult (Argv.mk "e" none true) (Stats.mk 0 0 0)
          exReposC3).codeScanningCommitters) ∧
      (jsSortStrings (loopResult (Argv.mk "e" none true) (Stats.mk 0 0 0)
        exReposC3).codeScanningCommitters).Nodup) :=
  C8_verbose_lists_sorted (Argv.mk "e" none true) (Stats.mk 0 0 0) exReposC3 rfl

/-- Repository whose configuration fetch throws, while its settings
fallback would report secret scanning enabled and its analyses probe would
report recent analyses - so C1 predicts its committer "alice" still enters
both sets. -/
def exRepoC1 : RepoData :=
  { name := "acme/cfail",
    advanced_security_committers_breakdown := [⟨"alice"⟩],
    api := { config := ConfigResult.failure,
             settingsStatus := 200, settingsSecretScanning := "enabled",
             analyses := AnalysesResult.success 2 } }

/-- Counterexample to C1: on a configuration-fetch failure the code
`continue`s out of the iteration (line 148), so neither the settings
fallback nor the analyses probe executes and no committer is added - the
only API call issued for the repository is the configuration fetch. -/
theorem C1_counterexample :
    (mainRun (Argv.mk "e" none false) (Stats.mk 0 0 0)
        [exRepoC1]).successfullyProcessed = 0 ∧
    (mainRun (Argv.mk "e" none false) (Stats.mk 0 0 0)
        [exRepoC1]).secretProtectionCommitters = [] ∧
    (mainRun (Argv.mk "e" none false) (Stats.mk 0 0 0)
        [exRepoC1]).codeScanningCommitters = [] ∧
    (mainRun (Argv.mk "e" none false) (Stats.mk 0 0 0)
        [exRepoC1]).calls = [ApiCall.configFetch "acme" "cfail"] := by
  decide

/-- C1 as amended: when the configuration fetch fails for a repository that
the org re-check did not skip, the success counter is not incremented and
the repository is skipped entirely - both committer sets are left
unchanged, and the configuration fetch is the only API call the iteration
issues (no settings fallback, no analyses probe). -/
theorem C1_amended_config_failure_skips (argv : Argv) (fr : List RepoData)
    (st : St) (r : RepoData) (hc : r.api.config = ConfigResult.failure)
    (hs : inLoopSkip argv r = false) :
    (processRepo argv fr st r).successfullyProcessed = st.successfullyProcessed ∧
    (processRepo argv fr st r).secretProtectionCommitters =
      st.secretProtectionCommitters ∧
    (processRepo argv fr st r).codeScanningCommitters =
      st.codeScanningCommitters ∧
    (processRepo argv fr st r).calls =
      st.calls ++ [ApiCall.configFetch (ownerOf r) (repoOf r)] := by
  have hcap : countsAsProcessed argv r = false := by
    simp [countsAsProcessed, configOk, hc]
  have hsa : secretAdds argv r = false := by
    simp [secretAdds, configOk, hc]
  have hca : codeAdds argv r = false := by
    simp [codeAdds, reachesCodeBlock, configOk, hc]
  refine ⟨?_, ?_, ?_, ?_⟩
  · rw [processRepo_count argv fr st r, hcap]
    simp
  · rw [processRepo_secret argv fr st r, hsa]
    simp
  · rw [processRepo_code argv fr st r, hca]
    simp
  · unfold processRepo processRepoBody
    unfold inLoopSkip at hs
    cases hv : argv.verbose <;> simp [hs, hc, hv]

/-- Witness for the amended C1 at a concrete repository. -/
theorem C1_amended_config_failure_skips_witness :
    (processRepo (Argv.mk "e" none false) [] (St.mk [] [] [] [] 0)
        exRepoC1).successfullyProcessed = 0 ∧
    (processRepo (Argv.mk "e" none false) [] (St.mk [] [] [] [] 0)
        exRepoC1).secretProtectionCommitters = [] ∧
    (processRepo (Argv.mk "e" none false) [] (St.mk [] [] [] [] 0)
        exRepoC1).codeScanningCommitters = [] ∧
    (processRepo (Argv.mk "e" none false) [] (St.mk [] [] [] [] 0)
        exRepoC1).calls =
      [ApiCall.configFetch (ownerOf exRepoC1) (repoOf exRepoC1)] :=
  C1_amended_config_failure_skips (Argv.mk "e" none false) []
    (St.mk [] [] [] [] 0) exRepoC1 (by decide) (by decide)

/-- Repository whose configuration fetch succeeds without enabling secret
scanning, and whose settings fetch returns 404. -/
def exRepoC2 : RepoData :=
  { name := "acme/sfail",
    advanced_security_committers_breakdown := [⟨"bob"⟩],
    api := { config := ConfigResult.success "attached" "disabled" "enabled",
             settingsStatus := 404, settingsSecretScanning := "enabled",
             analyses := AnalysesResult.success 1 } }

/-- Counterexample to C2: in a non-verbose run the settings-fetch error is
still printed (line 159 is not guarded by `argv.verbose`), refuting
"logged only when verbose mode is on". The repository is also skipped
before its code-scanning block despite its attached configuration enabling
code scanning. -/
theorem C2_counterexample :
    (mainRun (Argv.mk "e" none false) (Stats.mk 0 0 0) [exRepoC2]).output =
      ["Total active committers: 0", "Max active committers: 0",
       "Purchased committers: 0", "", "Number of repos: 1", "",
       "Error fetching repo settings for acme/sfail", "",
       "Successfully processed repositories: 1 out of 1",
       "Secret protection: 0", "Code security: 0"] ∧
    (mainRun (Argv.mk "e" none false) (Stats.mk 0 0 0)
        [exRepoC2]).codeScanningCommitters = [] := by
  decide

/-- C2 as amended: when the settings fallback runs (secret flag still false
after a successful configuration step) and returns a non-200 status, the
error line is printed unconditionally - in verbose and non-verbose runs
alike - the repository is skipped (neither set receives its committers and
the analyses probe is never issued), the counter keeps the increment from
the successful configuration fetch, and the loop continues with the
remaining repositories. -/
theorem C2_amended_settings_error (argv : Argv) (fr : List RepoData)
    (st : St) (r : RepoData) (status ss csds : String)
    (hs : inLoopSkip argv r = false)
    (hc : r.api.config = ConfigResult.success status ss csds)
    (hflag : (flagsAfterConfig status ss csds).1 = false)
    (h200 : ¬(r.api.settingsStatus = 200)) :
    ("Error fetching repo settings for " ++ r.name) ∈
      (processRepo argv fr st r).output ∧
    (processRepo argv fr st r).secretProtectionCommitters =
      st.secretProtectionCommitters ∧
    (processRepo argv fr st r).codeScanningCommitters =
      st.codeScanningCommitters ∧
    (processRepo argv fr st r).successfullyProcessed =
      st.successfullyProcessed + 1 ∧
    (processRepo argv fr st r).calls =
      st.calls ++ [ApiCall.configFetch (ownerOf r) (repoOf r),
        ApiCall.settingsFetch (ownerOf r) (repoOf r)] ∧
    (∀ rest : List RepoData,
      List.foldl (processRepo argv fr) st (r :: rest) =
        List.foldl (processRepo argv fr) (processRepo argv fr st r) rest) := by
  have h200b : (r.api.settingsStatus == 200) = false := by
    simpa using h200
  have hb1 : (status == "attached" && ss == "enabled") = false := by
    simpa using hflag
  have hsvc : secretViaConfig r = false := by
    simp [secretViaConfig, hc, hb1]
  have hsa : secretAdds argv r = false := by
    simp [secretAdds, hsvc, h200b]
  have hca : codeAdds argv r = false := by
    simp [codeAdds, reachesCodeBlock, hsvc, h200b]
  have hcap : countsAsProcessed argv r = true := by
    simp [countsAsProcessed, configOk, hc, hs]
  have hcond : ¬status = "attached" ∨ ¬ss = "enabled" := by
    have h := by simpa using hb1
    by_cases ha : status = "attached"
    · exact Or.inr (h ha)
    · exact Or.inl ha
  have hpb1 : ¬(status = "attached" ∧ ss = "enabled") := by
    simpa using hb1
  refine ⟨?_, ?_, ?_, ?_, ?_, fun rest => rfl⟩
  · unfold processRepo processRepoBody
    unfold inLoopSkip at hs
    cases hv : argv.verbose <;>
      simp [hs, hc, hv, secretFallback_output, hflag, h200b, hcond]
  · rw [processRepo_secret argv fr st r, hsa]
    simp
  · rw [processRepo_code argv fr st r, hca]
    simp
  · rw [processRepo_count argv fr st r, hcap]
    simp
  · unfold processRepo processRepoBody
    unfold inLoopSkip at hs
    cases hv : argv.verbose <;>
      simp [hs, hc, hv, secretFallback_calls, hflag, h200b, hcond, hpb1, h200]

/-- Witness for the amended C2 at a concrete non-verbose state. -/
theorem C2_amended_settings_error_witness :
    ("Error fetching repo settings for " ++ exRepoC2.name) ∈
      (processRepo (Argv.mk "e" none false) [] (St.mk [] [] [] [] 0)
        exRepoC2).output ∧
    (processRepo (Argv.mk "e" none false) [] (St.mk [] [] [] [] 0)
        exRepoC2).secretProtectionCommitters = [] ∧
    (processRepo (Argv.mk "e" none false) [] (St.mk [] [] [] [] 0)
        exRepoC2).codeScanningCommitters = [] ∧
    (processRepo (Argv.mk "e" none false) [] (St.mk [] [] [] [] 0)
        exRepoC2).successfullyProcessed = 0 + 1 ∧
    (processRepo (Argv.mk "e" none false) [] (St.mk [] [] [] [] 0)
        exRepoC2).calls =
      [ApiCall.configFetch (ownerOf exRepoC2) (repoOf exRepoC2),
        ApiCall.settingsFetch (ownerOf exRepoC2) (repoOf exRepoC2)] ∧
    (∀ rest : List RepoData,
      List.foldl (processRepo (Argv.mk "e" none false) []) (St.mk [] [] [] [] 0)
          (exRepoC2 :: rest) =
        List.foldl (processRepo (Argv.mk "e" none false) [])
          (processRepo (Argv.mk "e" none false) [] (St.mk [] [] [] [] 0) exRepoC2)
          rest) :=
  C2_amended_settings_error (Argv.mk "e" none false) [] (St.mk [] [] [] [] 0)
    exRepoC2 "attached" "disabled" "enabled" (by decide) rfl (by decide) (by decide)

/-- Repository with a successful "attached" configuration enabling neither
tool, a failing settings fetch, and recent analyses available - C7 predicts
the probe runs for it and would find analyses. -/
def exRepoC7 : RepoData :=
  { name := "acme/noprobe",
    advanced_security_committers_breakdown := [⟨"dave"⟩],
    api := { config := ConfigResult.success "attached" "disabled" "disabled",
             settingsStatus := 500, settingsSecretScanning := "enabled",
             analyses := AnalysesResult.success 3 } }

/-- Counterexample to C7: `codeScanningEnabled` is false after the
configuration step of this repository, yet the recent-analyses probe never
runs - the settings fallback `continue`s out first (line 160) - and its
committer is not added even though analyses exist. -/
theorem C7_counterexample :
    (flagsAfterConfig "attached" "disabled" "disabled").2 = false ∧
    (mainRun (Argv.mk "e" none false) (Stats.mk 0 0 0) [exRepoC7]).calls =
      [ApiCall.configFetch "acme" "noprobe",
        ApiCall.settingsFetch "acme" "noprobe"] ∧
    (mainRun (Argv.mk "e" none false) (Stats.mk 0 0 0)
        [exRepoC7]).codeScanningCommitters = [] := by
  decide

/-- C7 as amended: for a repository that actually reaches the code-scanning
block (configuration fetch succeeded and, when the secret-scanning fallback
ran, the settings fetch returned 200) with `codeScanningEnabled` still
false, the analyses probe runs; at least one analysis makes the breakdown
enter the code-scanning set, and a probe error leaves the set unchanged and
skips silently to the next repository while keeping the counter increment
from the successful configuration fetch. -/
theorem C7_amended_probe (argv : Argv) (fr : List RepoData) (st : St)
    (r : RepoData) (status ss csds : String)
    (hs : inLoopSkip argv r = false)
    (hc : r.api.config = ConfigResult.success status ss csds)
    (hflag2 : (flagsAfterConfig status ss csds).2 = false)
    (hreach : (flagsAfterConfig status ss csds).1 = true ∨
      r.api.settingsStatus = 200)
    (hnot : ApiCall.analysesProbe (ownerOf r) (repoOf r) ∉ st.calls) :
    ApiCall.analysesProbe (ownerOf r) (repoOf r) ∈
      (processRepo argv fr st r).calls ∧
    (∀ len, r.api.analyses = AnalysesResult.success len → 0 < len →
      (processRepo argv fr st r).codeScanningCommitters =
        addCommitters st.codeScanningCommitters
          r.advanced_security_committers_breakdown) ∧
    (r.api.analyses = AnalysesResult.failure →
      (processRepo argv fr st r).codeScanningCommitters =
        st.codeScanningCommitters ∧
      (processRepo argv fr st r).successfullyProcessed =
        st.successfullyProcessed + 1) := by
  have hb2 : (status == "attached" && csds == "enabled") = false := by
    simpa using hflag2
  have hreachp : (status = "attached" ∧ ss = "enabled") ∨
      r.api.settingsStatus = 200 := by
    simpa using hreach
  have hcvc : codeViaConfig r = false := by
    simp [codeViaConfig, hc, hb2]
  have hsvc200 : (secretViaConfig r || (r.api.settingsStatus == 200)) = true := by
    simp [secretViaConfig, hc]
    exact hreachp
  have hrb : reachesCodeBlock argv r = true := by
    simp only [reachesCodeBlock, hs, configOk, hc, Bool.not_false, Bool.true_and]
    exact hsvc200
  have hcond2 : ¬status = "attached" ∨ ¬csds = "enabled" := by
    have h := by simpa using hb2
    by_cases ha : status = "attached"
    · exact Or.inr (h ha)
    · exact Or.inl ha
  refine ⟨?_, ?_, ?_⟩
  · unfold processRepo processRepoBody
    unfold inLoopSkip at hs
    cases hv : argv.verbose <;>
      simp [hs, hc, hv, secretFallback_calls, hflag2, hreachp, hcond2]
  · intro len hlen hpos
    have hca : codeAdds argv r = true := by
      simp [codeAdds, hrb, hcvc, probeHit, hlen, hpos]
    rw [processRepo_code argv fr st r, hca]
    simp
  · intro hfail
    have hca : codeAdds argv r = false := by
      simp [codeAdds, hcvc, probeHit, hfail]
    have hcap : countsAsProcessed argv r = true := by
      simp [countsAsProcessed, configOk, hc, hs]
    constructor
    · rw [processRepo_code argv fr st r, hca]
      simp
    · rw [processRepo_count argv fr st r, hcap]
      simp

/-- Repository that reaches the code-scanning block (settings fetch
succeeds) with the flag still false and analyses available. -/
def exRepoC7w : RepoData :=
  { name := "acme/probed",
    advanced_security_committers_breakdown := [⟨"erin"⟩],
    api := { config := ConfigResult.success "attached" "disabled" "disabled",
             settingsStatus := 200, settingsSecretScanning := "disabled",
             analyses := AnalysesResult.success 3 } }

/-- Witness for the amended C7 at a concrete repository. -/
theorem C7_amended_probe_witness :
    ApiCall.analysesProbe (ownerOf exRepoC7w) (repoOf exRepoC7w) ∈
      (processRepo (Argv.mk "e" none false) [] (St.mk [] [] [] [] 0)
        exRepoC7w).calls ∧
    (∀ len, exRepoC7w.api.analyses = AnalysesResult.success len → 0 < len →
      (processRepo (Argv.mk "e" none false) [] (St.mk [] [] [] [] 0)
          exRepoC7w).codeScanningCommitters =
        addCommitters (St.mk [] [] [] [] 0).codeScanningCommitters
          exRepoC7w.advanced_security_committers_breakdown) ∧
    (exRepoC7w.api.analyses = AnalysesResult.failure →
      (processRepo (Argv.mk "e" none false) [] (St.mk [] [] [] [] 0)
          exRepoC7w).codeScanningCommitters =
        (St.mk [] [] [] [] 0).codeScanningCommitters ∧
      (processRepo (Argv.mk "e" none false) [] (St.mk [] [] [] [] 0)
          exRepoC7w).successfullyProcessed =
        (St.mk [] [] [] [] 0).successfullyProcessed + 1) :=
  C7_amended_probe (Argv.mk "e" none false) [] (St.mk [] [] [] [] 0) exRepoC7w
    "attached" "disabled" "disabled" (by decide) rfl (by decide)
    (Or.inr (by decide)) (by decide)

end GhasTool
